import Mathlib

/-!
Verification of the Sprint Backlog Manager of `autogen/agentchat/agent_dev_team.py`
(class `AgentDevTeam`): backlog store, greedy sprint planner, status lifecycle
and export snapshot. Python machine integers are modelled as `Int`; wall-clock
timestamps (`datetime.now()`) are modelled as an explicit `now : Int` argument;
the opaque sprint-history records appended by the surrounding system are a type
parameter `H`. File output in `export_sprint_history` is modelled as the
document value that is written.
-/

/-! ### Decimal formatting (Python `str(n)` and `"%03d" % n`) -/

/-- Least-significant-first decimal digits of `n`, with `fuel ≥ n` steps
available (mirrors the digit loop of CPython's integer formatting). -/
def decAux : Nat → Nat → List Nat
  | 0, n => [n]
  | fuel + 1, n => if n < 10 then [n] else n % 10 :: decAux fuel (n / 10)

/-- Least-significant-first decimal digits of `n`. -/
def digitsRev (n : Nat) : List Nat := decAux n n

/-- The decimal digit characters of `n`, most significant first:
the character list of Python's `str(n)`. -/
def decChars (n : Nat) : List Char := (digitsRev n).reverse.map Nat.digitChar

/-- Python `str(n)` for a natural number. -/
def decRepr (n : Nat) : String := String.mk (decChars n)

/-- Python `"%03d" % n` for `n ≥ 0`: the decimal digits, left-padded with
zeros to width 3. -/
def pad3 (n : Nat) : String :=
  String.mk (List.replicate (3 - (decChars n).length) '0' ++ decChars n)

/-- The story identifier Python computes as `f"US-{n:03d}"`. -/
def usId (n : Nat) : String := "US-" ++ pad3 n

/-- The sprint identifier Python computes as `f"Sprint-{n}"`. -/
def sprintId (n : Nat) : String := "Sprint-" ++ decRepr n

/-! ### Data model (`UserStory`, `SprintConfig`, `SprintPhase`, sprint record) -/

/-- `UserStory` dataclass of `agent_dev_team.py`. -/
structure UserStory where
  id : String
  title : String
  description : String
  acceptance_criteria : List String
  story_points : Int
  priority : Int
  status : String
  assigned_to : Option String
  created_at : Int
deriving DecidableEq

/-- `SprintConfig` dataclass of `agent_dev_team.py`. -/
structure SprintConfig where
  duration_days : Int := 14
  capacity_points : Int := 40
  focus_areas : List String := ["functionality", "quality", "performance"]
  max_iterations : Int := 10
  auto_testing : Bool := true
  code_review_required : Bool := true
deriving DecidableEq

/-- `SprintPhase` enum of `agent_dev_team.py`. -/
inductive SprintPhase where
  | planning | development | review | testing | retrospective | complete
deriving DecidableEq

/-- The `sprint_data` dict built by `AgentDevTeam.plan_sprint`. -/
structure Sprint where
  id : String
  goal : String
  stories : List String
  start_date : Int
  end_date : Int
  phase : SprintPhase
  capacity : Int
deriving DecidableEq

/-- The mutable state of one `AgentDevTeam` instance: `sprint_config`,
`current_sprint`, `backlog`, `sprint_history`. Entries of `sprint_history`
are appended by the surrounding system and never inspected here, so their
type is a parameter `H`. -/
structure AgentDevTeam (H : Type) where
  sprint_config : SprintConfig
  current_sprint : Option Sprint
  backlog : List UserStory
  sprint_history : List H

/-- `AgentDevTeam.__init__`: empty backlog, no current sprint, empty history. -/
def initTeam (H : Type) (cfg : SprintConfig) : AgentDevTeam H :=
  { sprint_config := cfg, current_sprint := none, backlog := [], sprint_history := [] }

/-! ### `create_user_story` -/

/-- `AgentDevTeam.create_user_story`: build the story with id
`f"US-{len(self.backlog) + 1:03d}"`, status `"backlog"`, and append it to the
backlog. Returns the story and the updated state. -/
def create_user_story {H : Type} (now : Int) (t : AgentDevTeam H)
    (title description : String) (acceptance_criteria : List String)
    (story_points priority : Int) : UserStory × AgentDevTeam H :=
  let story : UserStory :=
    { id := usId (t.backlog.length + 1)
      title := title
      description := description
      acceptance_criteria := acceptance_criteria
      story_points := story_points
      priority := priority
      status := "backlog"
      assigned_to := none
      created_at := now }
  (story, { t with backlog := t.backlog ++ [story] })

/-! ### `plan_sprint` -/

/-- The sort key of `sorted(self.backlog, key=lambda s: s.priority)`. -/
def priorityLe (a b : UserStory) : Prop := a.priority ≤ b.priority

instance : DecidableRel priorityLe := fun a b => inferInstanceAs (Decidable (a.priority ≤ b.priority))

instance : IsTotal UserStory priorityLe := ⟨fun a b => Int.le_total a.priority b.priority⟩

instance : IsTrans UserStory priorityLe := ⟨fun _ _ _ h1 h2 => Int.le_trans h1 h2⟩

/-- `sorted(self.backlog, key=lambda s: s.priority)`: Python's `sorted` is a
stable sort by the key, realised here by the stable `List.insertionSort`. -/
def sorted_backlog (backlog : List UserStory) : List UserStory :=
  List.insertionSort priorityLe backlog

/-- The auto-selection loop of `plan_sprint`:
`for story in sorted_backlog: if story.story_points <= available_points and
story.status == "backlog": select it and decrement available_points`. -/
def select_loop : List UserStory → Int → List String
  | [], _ => []
  | story :: rest, available_points =>
    if story.story_points ≤ available_points ∧ story.status = "backlog" then
      story.id :: select_loop rest (available_points - story.story_points)
    else
      select_loop rest available_points

/-- The same loop, instrumented to return the selected stories themselves
rather than their ids. -/
def select_stories : List UserStory → Int → List UserStory
  | [], _ => []
  | story :: rest, available_points =>
    if story.story_points ≤ available_points ∧ story.status = "backlog" then
      story :: select_stories rest (available_points - story.story_points)
    else
      select_stories rest available_points

/-- The whole auto-selection path of `plan_sprint` (no explicit selection
given): walk the priority-sorted backlog once starting from
`available_points = capacity_points`. -/
def auto_select (cfg : SprintConfig) (backlog : List UserStory) : List String :=
  select_loop (sorted_backlog backlog) cfg.capacity_points

/-- The auto-selected stories themselves (ids are their `.id`s). -/
def auto_selected_stories (cfg : SprintConfig) (backlog : List UserStory) : List UserStory :=
  select_stories (sorted_backlog backlog) cfg.capacity_points

/-- Sum of the story-point estimates of a list of stories. -/
def points_sum (l : List UserStory) : Int := (l.map (fun s => s.story_points)).sum

/-- Inner loop of the status update of `plan_sprint`:
`for story in self.backlog: if story.id == story_id: story.status = "sprint_backlog"`. -/
def mark_selected (backlog : List UserStory) (story_id : String) : List UserStory :=
  backlog.map (fun story =>
    if story.id = story_id then { story with status := "sprint_backlog" } else story)

/-- Outer loop of the status update of `plan_sprint`:
`for story_id in selected_stories: ...`. -/
def update_statuses (backlog : List UserStory) (selected_stories : List String) :
    List UserStory :=
  selected_stories.foldl mark_selected backlog

/-- `AgentDevTeam.plan_sprint`: auto-select when `selected_stories` is `none`,
otherwise use the given list verbatim; build `sprint_data` with id
`f"Sprint-{len(self.sprint_history) + 1}"`, replace `current_sprint`, and set
the status of every selected story to `"sprint_backlog"`. Returns the sprint
record and the updated state. The Python method raises no exception on this
path, so the model is a total function. -/
def plan_sprint {H : Type} (now : Int) (t : AgentDevTeam H)
    (sprint_goal : String) (selected_stories : Option (List String)) :
    Sprint × AgentDevTeam H :=
  let selected : List String :=
    match selected_stories with
    | none => auto_select t.sprint_config t.backlog
    | some l => l
  let sprint_data : Sprint :=
    { id := sprintId (t.sprint_history.length + 1)
      goal := sprint_goal
      stories := selected
      start_date := now
      end_date := now + t.sprint_config.duration_days
      phase := SprintPhase.planning
      capacity := t.sprint_config.capacity_points }
  (sprint_data,
   { t with
       current_sprint := some sprint_data
       backlog := update_statuses t.backlog selected })

/-! ### `get_team_status` and `export_sprint_history` -/

/-- The part of the `get_team_status` dict produced from this component's own
state (`team_composition` and `project_path` echo external collaborators —
the agents dict and the filesystem — and are outside the model). -/
structure TeamStatus where
  current_sprint : Option Sprint
  backlog_size : Nat
  sprint_history_count : Nat
  duration_days : Int
  capacity_points : Int
  focus_areas : List String
deriving DecidableEq

/-- `AgentDevTeam.get_team_status`. -/
def get_team_status {H : Type} (t : AgentDevTeam H) : TeamStatus :=
  { current_sprint := t.current_sprint
    backlog_size := t.backlog.length
    sprint_history_count := t.sprint_history.length
    duration_days := t.sprint_config.duration_days
    capacity_points := t.sprint_config.capacity_points
    focus_areas := t.sprint_config.focus_areas }

/-- One entry of the `"backlog"` array written by `export_sprint_history`. -/
structure ExportedStory where
  id : String
  title : String
  description : String
  acceptance_criteria : List String
  story_points : Int
  priority : Int
  status : String
  created_at : Int
deriving DecidableEq

/-- The per-story record built by `export_sprint_history`
(`created_at` is rendered by `isoformat()`, an injective encoding of the
timestamp, modelled as the timestamp value). -/
def exportStory (story : UserStory) : ExportedStory :=
  { id := story.id
    title := story.title
    description := story.description
    acceptance_criteria := story.acceptance_criteria
    story_points := story.story_points
    priority := story.priority
    status := story.status
    created_at := story.created_at }

/-- The `export_data` document written by `export_sprint_history`. -/
structure ExportData (H : Type) where
  team_config : TeamStatus
  backlog : List ExportedStory
  sprint_history : List H
  exported_at : Int

/-- `AgentDevTeam.export_sprint_history`: the document value serialised to the
output file (the JSON dump/parse round trip is faithful for these fields). -/
def export_sprint_history {H : Type} (now : Int) (t : AgentDevTeam H) : ExportData H :=
  { team_config := get_team_status t
    backlog := t.backlog.map exportStory
    sprint_history := t.sprint_history
    exported_at := now }

/-! ### Injectivity of the identifier formats -/

/-- Value of a least-significant-first digit list. -/
def digitsVal (l : List Nat) : Nat := l.foldr (fun d acc => acc * 10 + d) 0

/-- Numeric value of a decimal digit character. -/
def digitVal (c : Char) : Nat := c.toNat - 48

/-- Value of a most-significant-first list of decimal digit characters,
ignoring leading zeros. -/
def charsVal (l : List Char) : Nat := l.foldl (fun acc c => acc * 10 + digitVal c) 0

theorem digitsVal_decAux : ∀ fuel n, n ≤ fuel → digitsVal (decAux fuel n) = n := by
  intro fuel
  induction fuel with
  | zero =>
    intro n hn
    have : n = 0 := Nat.le_zero.mp hn
    subst this
    rfl
  | succ fuel ih =>
    intro n hn
    by_cases h10 : n < 10
    · simp [decAux, h10, digitsVal]
    · have hdiv : n / 10 ≤ fuel := by
        have : n / 10 < n := Nat.div_lt_self (by omega) (by omega)
        omega
      simp only [decAux, h10, if_false, digitsVal, List.foldr_cons]
      have := ih (n / 10) hdiv
      simp only [digitsVal] at this
      rw [this]
      omega

theorem decAux_digits_lt : ∀ fuel n, n ≤ fuel → ∀ d ∈ decAux fuel n, d < 10 := by
  intro fuel
  induction fuel with
  | zero =>
    intro n hn d hd
    have : n = 0 := Nat.le_zero.mp hn
    subst this
    simp [decAux] at hd
    omega
  | succ fuel ih =>
    intro n hn d hd
    by_cases h10 : n < 10
    · simp [decAux, h10] at hd
      omega
    · simp only [decAux, h10, if_false, List.mem_cons] at hd
      rcases hd with h | h
      · omega
      · exact ih (n / 10) (by
          have : n / 10 < n := Nat.div_lt_self (by omega) (by omega)
          omega) d h

theorem digitVal_digitChar : ∀ d, d < 10 → digitVal (Nat.digitChar d) = d := by decide

theorem charsVal_replicate_zero : ∀ k (l : List Char),
    charsVal (List.replicate k '0' ++ l) = charsVal l := by
  intro k
  induction k with
  | zero => intro l; rfl
  | succ k ih =>
    intro l
    simp only [List.replicate_succ, List.cons_append, charsVal, List.foldl_cons]
    have h0 : (0 : Nat) * 10 + digitVal '0' = 0 := by decide
    rw [h0]
    exact ih l

theorem charsVal_decChars (n : Nat) : charsVal (decChars n) = n := by
  have hlt : ∀ d ∈ digitsRev n, d < 10 := decAux_digits_lt n n (Nat.le_refl n)
  have hval : digitsVal (digitsRev n) = n := digitsVal_decAux n n (Nat.le_refl n)
  simp only [decChars, charsVal, List.foldl_reverse, List.foldl_map]
  have : ∀ (l : List Nat), (∀ d ∈ l, d < 10) →
      l.foldr (fun d acc => acc * 10 + digitVal (Nat.digitChar d)) 0 =
      l.foldr (fun d acc => acc * 10 + d) 0 := by
    intro l
    induction l with
    | nil => intro _; rfl
    | cons d rest ih =>
      intro h
      simp only [List.foldr_cons]
      rw [ih (fun x hx => h x (List.mem_cons_of_mem d hx)),
        digitVal_digitChar d (h d (List.mem_cons_self d rest))]
  rw [this (digitsRev n) hlt]
  exact hval

theorem charsVal_pad3 (n : Nat) : charsVal (pad3 n).data = n := by
  simp only [pad3]
  rw [charsVal_replicate_zero]
  exact charsVal_decChars n

theorem pad3_inj : ∀ a b, pad3 a = pad3 b → a = b := by
  intro a b h
  have := congrArg (fun s => charsVal s.data) h
  simpa [charsVal_pad3] using this

theorem usId_inj : ∀ a b, usId a = usId b → a = b := by
  intro a b h
  apply pad3_inj
  have hd : ('U' :: 'S' :: '-' :: (pad3 a).data) = ('U' :: 'S' :: '-' :: (pad3 b).data) := by
    have := congrArg String.data h
    simpa [usId, String.data_append] using this
  have : (pad3 a).data = (pad3 b).data := by
    simpa using hd
  cases pa : pad3 a
  cases pb : pad3 b
  simp_all

/-! ### Characterisation of the status update -/

/-- Net effect of the nested status-update loops on one story. -/
def applySel (sel : List String) (story : UserStory) : UserStory :=
  if story.id ∈ sel then { story with status := "sprint_backlog" } else story

theorem applySel_id (sel : List String) (story : UserStory) :
    (applySel sel story).id = story.id := by
  simp only [applySel]
  split <;> rfl

theorem update_statuses_eq_map : ∀ (sel : List String) (b : List UserStory),
    update_statuses b sel = b.map (applySel sel) := by
  intro sel
  induction sel with
  | nil =>
    intro b
    simp only [update_statuses, List.foldl_nil, applySel, List.not_mem_nil, if_false]
    exact (List.map_id' b).symm
  | cons s rest ih =>
    intro b
    have step : update_statuses b (s :: rest) = update_statuses (mark_selected b s) rest := rfl
    rw [step, ih, mark_selected, List.map_map]
    apply List.map_congr_left
    intro story _
    simp only [Function.comp_apply, applySel, List.mem_cons]
    by_cases hid : story.id = s
    · simp [hid]
    · simp only [hid, if_false]
      by_cases hmem : story.id ∈ rest
      · simp [hmem, hid]
      · simp [hmem, hid]

/-! ### Selection-loop lemmas -/

theorem select_loop_eq_map : ∀ (l : List UserStory) (a : Int),
    select_loop l a = (select_stories l a).map (fun s => s.id) := by
  intro l
  induction l with
  | nil => intro a; rfl
  | cons s rest ih =>
    intro a
    simp only [select_loop, select_stories]
    split
    · simp [ih]
    · exact ih a

theorem select_stories_points_le : ∀ (l : List UserStory) (a : Int), 0 ≤ a →
    points_sum (select_stories l a) ≤ a := by
  intro l
  induction l with
  | nil => intro a ha; simpa [select_stories, points_sum] using ha
  | cons s rest ih =>
    intro a ha
    simp only [select_stories]
    split
    · next hcond =>
      have h1 : s.story_points ≤ a := hcond.1
      have h2 : points_sum (select_stories rest (a - s.story_points)) ≤ a - s.story_points :=
        ih (a - s.story_points) (by omega)
      simp only [points_sum, List.map_cons, List.sum_cons]
      simp only [points_sum] at h2
      omega
    · exact ih a ha

theorem select_stories_mem : ∀ (l : List UserStory) (a : Int) (s : UserStory),
    s ∈ select_stories l a → s ∈ l ∧ s.status = "backlog" := by
  intro l
  induction l with
  | nil => intro a s h; simp [select_stories] at h
  | cons x rest ih =>
    intro a s h
    simp only [select_stories] at h
    split at h
    · next hcond =>
      rcases List.mem_cons.mp h with h1 | h1
      · subst h1; exact ⟨List.mem_cons_self _ _, hcond.2⟩
      · rcases ih _ s h1 with ⟨hm, hs⟩
        exact ⟨List.mem_cons_of_mem _ hm, hs⟩
    · rcases ih _ s h with ⟨hm, hs⟩
      exact ⟨List.mem_cons_of_mem _ hm, hs⟩

/-! ### The spec's auto-selection procedure (filter first, then stable sort) -/

/-- The story eligibility predicate of the spec: status is exactly `"backlog"`. -/
def isBacklog (s : UserStory) : Bool := decide (s.status = "backlog")

/-- Spec step 2: the eligible stories, in original backlog order. -/
def eligible_stories (backlog : List UserStory) : List UserStory :=
  backlog.filter isBacklog

/-- Spec step 4: walk the sequence once, selecting every story whose
story-point estimate fits the remaining `available_points`. -/
def spec_select_loop : List UserStory → Int → List String
  | [], _ => []
  | story :: rest, available_points =>
    if story.story_points ≤ available_points then
      story.id :: spec_select_loop rest (available_points - story.story_points)
    else
      spec_select_loop rest available_points

/-- Modelled from the spec (§4.2 steps 1–5): filter to the eligible stories,
stably sort them by priority, then run the greedy single pass. -/
def spec_auto_select (cfg : SprintConfig) (backlog : List UserStory) : List String :=
  spec_select_loop (sorted_backlog (eligible_stories backlog)) cfg.capacity_points

theorem orderedInsert_of_forall_rel (a : UserStory) :
    ∀ (l : List UserStory), (∀ c ∈ l, priorityLe a c) →
    List.orderedInsert priorityLe a l = a :: l := by
  intro l h
  cases l with
  | nil => rfl
  | cons b tl => exact List.orderedInsert_of_le priorityLe tl (h b (List.mem_cons_self b tl))

theorem filter_orderedInsert_pos (p : UserStory → Bool) (a : UserStory)
    (hpa : p a = true) :
    ∀ (l : List UserStory), List.Sorted priorityLe l →
    (List.orderedInsert priorityLe a l).filter p =
      List.orderedInsert priorityLe a (l.filter p) := by
  intro l
  induction l with
  | nil => intro _; simp [List.orderedInsert, hpa]
  | cons b tl ih =>
    intro hs
    have hb : ∀ c ∈ tl, priorityLe b c := List.rel_of_sorted_cons hs
    have hs' : List.Sorted priorityLe tl := List.Sorted.of_cons hs
    by_cases hab : priorityLe a b
    · rw [List.orderedInsert_of_le priorityLe tl hab, List.filter_cons_of_pos hpa]
      have hall : ∀ c ∈ (b :: tl).filter p, priorityLe a c := by
        intro c hc
        have hc' : c ∈ b :: tl := List.mem_of_mem_filter hc
        rcases List.mem_cons.mp hc' with h1 | h1
        · subst h1; exact hab
        · exact Trans.trans hab (hb c h1)
      rw [orderedInsert_of_forall_rel a _ hall]
    · have hoi : List.orderedInsert priorityLe a (b :: tl) =
          b :: List.orderedInsert priorityLe a tl := by
        simp [List.orderedInsert, hab]
      rw [hoi]
      by_cases hpb : p b = true
      · rw [List.filter_cons_of_pos hpb, List.filter_cons_of_pos hpb, ih hs']
        have : List.orderedInsert priorityLe a (b :: tl.filter p) =
            b :: List.orderedInsert priorityLe a (tl.filter p) := by
          simp [List.orderedInsert, hab]
        rw [this]
      · have hpb' : p b = false := by
          cases h : p b
          · rfl
          · exact absurd h hpb
        rw [List.filter_cons_of_neg (by simp [hpb']),
          List.filter_cons_of_neg (by simp [hpb']), ih hs']

theorem filter_orderedInsert_neg (p : UserStory → Bool) (a : UserStory)
    (hpa : p a = false) :
    ∀ (l : List UserStory),
    (List.orderedInsert priorityLe a l).filter p = l.filter p := by
  intro l
  induction l with
  | nil => simp [List.orderedInsert, hpa]
  | cons b tl ih =>
    by_cases hab : priorityLe a b
    · rw [List.orderedInsert_of_le priorityLe tl hab,
        List.filter_cons_of_neg (by simp [hpa])]
    · have hoi : List.orderedInsert priorityLe a (b :: tl) =
          b :: List.orderedInsert priorityLe a tl := by
        simp [List.orderedInsert, hab]
      rw [hoi]
      by_cases hpb : p b = true
      · rw [List.filter_cons_of_pos hpb, List.filter_cons_of_pos hpb, ih]
      · have hpb' : p b = false := by
          cases h : p b
          · rfl
          · exact absurd h hpb
        rw [List.filter_cons_of_neg (by simp [hpb']),
          List.filter_cons_of_neg (by simp [hpb']), ih]

theorem filter_insertionSort (p : UserStory → Bool) :
    ∀ (l : List UserStory),
    (List.insertionSort priorityLe l).filter p =
      List.insertionSort priorityLe (l.filter p) := by
  intro l
  induction l with
  | nil => rfl
  | cons a tl ih =>
    show (List.orderedInsert priorityLe a (List.insertionSort priorityLe tl)).filter p = _
    by_cases hpa : p a = true
    · rw [filter_orderedInsert_pos p a hpa _
        (List.sorted_insertionSort priorityLe tl), ih,
        List.filter_cons_of_pos hpa]
      rfl
    · have hpa' : p a = false := by
        cases h : p a
        · rfl
        · exact absurd h hpa
      rw [filter_orderedInsert_neg p a hpa', ih,
        List.filter_cons_of_neg (by simp [hpa'])]

theorem select_loop_eq_spec_on_filter : ∀ (l : List UserStory) (a : Int),
    select_loop l a = spec_select_loop (l.filter isBacklog) a := by
  intro l
  induction l with
  | nil => intro a; rfl
  | cons s rest ih =>
    intro a
    by_cases hst : s.status = "backlog"
    · have hb : isBacklog s = true := by simp [isBacklog, hst]
      rw [List.filter_cons_of_pos hb]
      simp only [select_loop, spec_select_loop, hst, and_true]
      split
      · rw [ih]
      · rw [ih]
    · have hb : isBacklog s = false := by simp [isBacklog, hst]
      rw [List.filter_cons_of_neg (by simp [hb])]
      simp only [select_loop, hst, and_false, if_false]
      exact ih a

/-! ### Iterated story creation -/

/-- One call's worth of `create_user_story` arguments. -/
structure StoryInput where
  title : String
  description : String
  acceptance_criteria : List String
  story_points : Int
  priority : Int

/-- A sequence of `create_user_story` calls; returns the stories in return
order and the final state. -/
def create_many {H : Type} (now : Int) :
    AgentDevTeam H → List StoryInput → List UserStory × AgentDevTeam H
  | t, [] => ([], t)
  | t, inp :: rest =>
    let r := create_user_story now t inp.title inp.description
      inp.acceptance_criteria inp.story_points inp.priority
    let rs := create_many now r.2 rest
    (r.1 :: rs.1, rs.2)

theorem create_many_backlog {H : Type} (now : Int) :
    ∀ (inputs : List StoryInput) (t : AgentDevTeam H),
    (create_many now t inputs).2.backlog = t.backlog ++ (create_many now t inputs).1 := by
  intro inputs
  induction inputs with
  | nil => intro t; simp [create_many]
  | cons inp rest ih =>
    intro t
    simp only [create_many]
    rw [ih]
    simp [create_user_story, List.append_assoc]

theorem create_many_ids {H : Type} (now : Int) :
    ∀ (inputs : List StoryInput) (t : AgentDevTeam H),
    (create_many now t inputs).1.map (fun s => s.id) =
      (List.range inputs.length).map (fun i => usId (t.backlog.length + 1 + i)) := by
  intro inputs
  induction inputs with
  | nil => intro t; rfl
  | cons inp rest ih =>
    intro t
    simp only [create_many, List.map_cons, List.length_cons]
    rw [ih]
    have hlen : ((create_user_story now t inp.title inp.description
        inp.acceptance_criteria inp.story_points inp.priority).2).backlog.length =
        t.backlog.length + 1 := by
      simp [create_user_story]
    rw [hlen, List.range_succ_eq_map, List.map_cons, List.map_map]
    refine congrArg₂ (· :: ·) rfl ?_
    apply List.map_congr_left
    intro i _
    simp only [Function.comp_apply, Nat.succ_eq_add_one]
    congr 1
    omega

theorem create_many_statuses {H : Type} (now : Int) :
    ∀ (inputs : List StoryInput) (t : AgentDevTeam H),
    (create_many now t inputs).1.map (fun s => s.status) =
      List.replicate inputs.length "backlog" := by
  intro inputs
  induction inputs with
  | nil => intro t; rfl
  | cons inp rest ih =>
    intro t
    simp only [create_many, List.map_cons, List.length_cons, List.replicate_succ]
    rw [ih]
    rfl

/-! ### Reachable states of one manager instance -/

/-- States reachable over the life of one `AgentDevTeam` instance: the fresh
state, story creation, sprint planning, and the surrounding system appending
an execution record to `sprint_history` (`run_development_sprint`, which
touches no other field of this component's state). -/
inductive Reachable {H : Type} : AgentDevTeam H → Prop
  | init (cfg : SprintConfig) : Reachable (initTeam H cfg)
  | create (t : AgentDevTeam H) (now : Int) (title description : String)
      (criteria : List String) (points priority : Int) :
      Reachable t →
      Reachable (create_user_story now t title description criteria points priority).2
  | plan (t : AgentDevTeam H) (now : Int) (goal : String)
      (sel : Option (List String)) :
      Reachable t → Reachable (plan_sprint now t goal sel).2
  | archive (t : AgentDevTeam H) (e : H) :
      Reachable t → Reachable { t with sprint_history := t.sprint_history ++ [e] }

theorem plan_sprint_backlog {H : Type} (now : Int) (t : AgentDevTeam H)
    (goal : String) (sel : Option (List String)) :
    (plan_sprint now t goal sel).2.backlog =
      t.backlog.map (applySel (plan_sprint now t goal sel).1.stories) := by
  cases sel with
  | none => exact update_statuses_eq_map _ _
  | some l => exact update_statuses_eq_map _ _

theorem reachable_ids {H : Type} {t : AgentDevTeam H} (h : Reachable t) :
    t.backlog.map (fun s => s.id) =
      (List.range t.backlog.length).map (fun i => usId (i + 1)) := by
  induction h with
  | init cfg => rfl
  | create t now title description criteria points priority _ ih =>
    simp only [create_user_story, List.map_append, List.length_append, List.map_cons,
      List.map_nil, List.length_cons, List.length_nil]
    rw [ih]
    rw [show t.backlog.length + (0 + 1) = t.backlog.length + 1 by omega, List.range_succ,
      List.map_append]
    rfl
  | plan t now goal sel _ ih =>
    rw [plan_sprint_backlog, List.map_map]
    have h1 : ((fun s : UserStory => s.id) ∘
        applySel (plan_sprint now t goal sel).1.stories) =
        (fun s : UserStory => s.id) := by
      funext story
      exact applySel_id _ story
    rw [h1, List.length_map, ih]
  | archive t e _ ih => exact ih

theorem reachable_ids_nodup {H : Type} {t : AgentDevTeam H} (h : Reachable t) :
    (t.backlog.map (fun s => s.id)).Nodup := by
  rw [reachable_ids h]
  apply List.Nodup.map
  · intro a b hab
    have := usId_inj (a + 1) (b + 1) hab
    omega
  · exact List.nodup_range _

/-! ### Concrete states used by witnesses and counterexamples -/

/-- The default `SprintConfig` (capacity 40, duration 14). -/
def demoCfg : SprintConfig := {}

def demoTeam0 : AgentDevTeam String := initTeam String demoCfg

def demoStep1 : UserStory × AgentDevTeam String :=
  create_user_story 0 demoTeam0 "auth" "login" ["works"] 10 1

def demoStep2 : UserStory × AgentDevTeam String :=
  create_user_story 0 demoStep1.2 "search" "find" ["works"] 15 2

def demoStep3 : UserStory × AgentDevTeam String :=
  create_user_story 0 demoStep2.2 "export" "csv" ["works"] 20 3

/-- A manager holding three backlog stories with story points `[10, 15, 20]`
and priorities `[1, 2, 3]`, capacity 40. -/
def demoTeam : AgentDevTeam String := demoStep3.2

/-- `demoTeam` after one auto-selected sprint (stories `US-001`, `US-002`
move to `sprint_backlog`). -/
def demoPlanned : AgentDevTeam String := (plan_sprint 0 demoTeam "g1" none).2

/-- The first demo story as it stands inside `demoPlanned`. -/
def demoStory1 : UserStory :=
  { id := "US-001", title := "auth", description := "login",
    acceptance_criteria := ["works"], story_points := 10, priority := 1,
    status := "sprint_backlog", assigned_to := none, created_at := 0 }

/-- A configuration whose capacity was set to the negative integer `-1`
(nothing in `SprintConfig` forbids this). -/
def negCfg : SprintConfig := { capacity_points := -1 }

def negTeam : AgentDevTeam String := initTeam String negCfg

/-! ### Claim theorems -/

/-- C2, counterexample: on a fresh manager, two consecutive `plan_sprint`
calls with no archiving in between both produce the id `"Sprint-1"`; the
second call is the 2nd sprint ever planned, yet its id is not `"Sprint-2"`. -/
theorem plan_sprint_numbering_counterexample :
    (plan_sprint 0 (plan_sprint 0 demoTeam "g1" none).2 "g2" none).1.id = "Sprint-1" ∧
    (plan_sprint 0 (plan_sprint 0 demoTeam "g1" none).2 "g2" none).1.id ≠ "Sprint-2" := by
  constructor
  · rfl
  · decide

/-- C2, amended: every `plan_sprint` call names its sprint
`"Sprint-" + (len(sprint_history) + 1)` — numbering follows the count of
archived sprint-execution records at call time, not the count of planning
calls — and `plan_sprint` itself leaves `sprint_history` unchanged, so a
current sprint replaced without being archived reuses its number. -/
theorem plan_sprint_id_eq_history_succ {H : Type} (now : Int) (t : AgentDevTeam H)
    (goal : String) (sel : Option (List String)) :
    (plan_sprint now t goal sel).1.id = sprintId (t.sprint_history.length + 1) ∧
    (plan_sprint now t goal sel).2.sprint_history = t.sprint_history := by
  cases sel with
  | none => exact ⟨rfl, rfl⟩
  | some l => exact ⟨rfl, rfl⟩

/-- C3: on a backlog of three backlog-status stories with points
`[10, 15, 20]` and priorities `[1, 2, 3]` and capacity 40, auto-selection
picks exactly the first two (point sum 25) and skips the third; the greedy
single pass never substitutes the skipped story. -/
theorem plan_sprint_priority_ordering_example :
    (plan_sprint 0 demoTeam "goal" none).1.stories = ["US-001", "US-002"] ∧
    points_sum (auto_selected_stories demoTeam.sprint_config demoTeam.backlog) = 25 := by
  constructor
  · decide
  · decide

/-- C8: the export document reproduces, at export time, the backlog size,
every story's id, title and status in backlog order, and the sprint-history
count (both the history array itself and the `team_config` echo). -/
theorem export_sprint_history_round_trip {H : Type} (now : Int) (t : AgentDevTeam H) :
    (export_sprint_history now t).backlog.length = t.backlog.length ∧
    (export_sprint_history now t).backlog.map (fun e => e.id) =
      t.backlog.map (fun s => s.id) ∧
    (export_sprint_history now t).backlog.map (fun e => e.title) =
      t.backlog.map (fun s => s.title) ∧
    (export_sprint_history now t).backlog.map (fun e => e.status) =
      t.backlog.map (fun s => s.status) ∧
    (export_sprint_history now t).sprint_history.length = t.sprint_history.length ∧
    (export_sprint_history now t).team_config.backlog_size = t.backlog.length ∧
    (export_sprint_history now t).team_config.sprint_history_count =
      t.sprint_history.length := by
  refine ⟨?_, ?_, ?_, ?_, rfl, rfl, rfl⟩ <;>
    simp [export_sprint_history, exportStory, List.map_map, Function.comp]

/-- C9: the implemented auto-selection (stable-sort the whole backlog by
priority, filter on status inside the loop) selects the same story ids in
the same order as the spec's procedure (filter to backlog-status stories
first, then stable-sort by priority, then greedy single pass). -/
theorem auto_select_refines_spec (cfg : SprintConfig) (backlog : List UserStory) :
    auto_select cfg backlog = spec_auto_select cfg backlog := by
  show select_loop (sorted_backlog backlog) cfg.capacity_points =
    spec_select_loop (sorted_backlog (eligible_stories backlog)) cfg.capacity_points
  rw [select_loop_eq_spec_on_filter]
  show spec_select_loop ((List.insertionSort priorityLe backlog).filter isBacklog) _ = _
  rw [filter_insertionSort]
  rfl

/-- C1, counterexample: the claim quantifies over every configured capacity,
but `capacity_points` is a plain integer; with capacity `-1` and an empty
backlog nothing is auto-selected and the point sum `0` exceeds the
capacity. -/
theorem plan_sprint_capacity_counterexample :
    (plan_sprint 0 negTeam "goal" none).1.stories =
      (auto_selected_stories negTeam.sprint_config negTeam.backlog).map (fun s => s.id) ∧
    ¬ points_sum (auto_selected_stories negTeam.sprint_config negTeam.backlog) ≤
        negTeam.sprint_config.capacity_points := by
  constructor
  · rfl
  · decide

/-- C1, amended: for every backlog (story-point values unrestricted) and
every configured capacity `C ≥ 0`, the stories auto-selected by a
`plan_sprint` call without an explicit selection have story-point sum at
most `C`. -/
theorem plan_sprint_capacity_respect {H : Type} (now : Int) (t : AgentDevTeam H)
    (goal : String) (h : 0 ≤ t.sprint_config.capacity_points) :
    (plan_sprint now t goal none).1.stories =
      (auto_selected_stories t.sprint_config t.backlog).map (fun s => s.id) ∧
    points_sum (auto_selected_stories t.sprint_config t.backlog) ≤
      t.sprint_config.capacity_points := by
  constructor
  · exact select_loop_eq_map (sorted_backlog t.backlog) t.sprint_config.capacity_points
  · exact select_stories_points_le (sorted_backlog t.backlog)
      t.sprint_config.capacity_points h

/-- Witness for C1 at the three-story demo backlog with capacity 40. -/
theorem plan_sprint_capacity_respect_witness :
    (plan_sprint 0 demoTeam "goal" none).1.stories =
      (auto_selected_stories demoTeam.sprint_config demoTeam.backlog).map (fun s => s.id) ∧
    points_sum (auto_selected_stories demoTeam.sprint_config demoTeam.backlog) ≤
      demoTeam.sprint_config.capacity_points :=
  plan_sprint_capacity_respect 0 demoTeam "goal" (by decide)

/-- C10: either path of `plan_sprint` keeps the backlog's length and order,
changes no story field other than `status` (and that only to
`"sprint_backlog"`, only for stories whose id is in the final selected
list), leaves `sprint_history` untouched, and replaces `current_sprint`
wholesale with the new record. -/
theorem plan_sprint_frame {H : Type} (now : Int) (t : AgentDevTeam H)
    (goal : String) (sel : Option (List String)) :
    (plan_sprint now t goal sel).2.backlog =
      t.backlog.map (applySel (plan_sprint now t goal sel).1.stories) ∧
    (plan_sprint now t goal sel).2.backlog.length = t.backlog.length ∧
    (plan_sprint now t goal sel).2.backlog.map (fun s => s.id) =
      t.backlog.map (fun s => s.id) ∧
    (plan_sprint now t goal sel).2.backlog.map (fun s => s.title) =
      t.backlog.map (fun s => s.title) ∧
    (plan_sprint now t goal sel).2.backlog.map (fun s => s.description) =
      t.backlog.map (fun s => s.description) ∧
    (plan_sprint now t goal sel).2.backlog.map (fun s => s.acceptance_criteria) =
      t.backlog.map (fun s => s.acceptance_criteria) ∧
    (plan_sprint now t goal sel).2.backlog.map (fun s => s.story_points) =
      t.backlog.map (fun s => s.story_points) ∧
    (plan_sprint now t goal sel).2.backlog.map (fun s => s.priority) =
      t.backlog.map (fun s => s.priority) ∧
    (plan_sprint now t goal sel).2.backlog.map (fun s => s.assigned_to) =
      t.backlog.map (fun s => s.assigned_to) ∧
    (plan_sprint now t goal sel).2.backlog.map (fun s => s.created_at) =
      t.backlog.map (fun s => s.created_at) ∧
    (plan_sprint now t goal sel).2.sprint_history = t.sprint_history ∧
    (plan_sprint now t goal sel).2.current_sprint = some (plan_sprint now t goal sel).1 := by
  have hb := plan_sprint_backlog now t goal sel
  have hfield : ∀ {β : Type} (f : UserStory → β),
      (∀ s : UserStory, f { s with status := "sprint_backlog" } = f s) →
      (plan_sprint now t goal sel).2.backlog.map f = t.backlog.map f := by
    intro β f hf
    rw [hb, List.map_map]
    apply List.map_congr_left
    intro s _
    simp only [Function.comp_apply, applySel]
    split
    · exact hf s
    · rfl
  refine ⟨hb, ?_, hfield _ (fun s => rfl), hfield _ (fun s => rfl),
    hfield _ (fun s => rfl), hfield _ (fun s => rfl), hfield _ (fun s => rfl),
    hfield _ (fun s => rfl), hfield _ (fun s => rfl), hfield _ (fun s => rfl),
    ?_, ?_⟩
  · rw [hb, List.length_map]
  · cases sel with
    | none => rfl
    | some l => rfl
  · cases sel with
    | none => rfl
    | some l => rfl

/-- C5: after a `plan_sprint` call, a backlog entry whose id is in the
final selected list has status `"sprint_backlog"`, and an entry whose id
is not in it keeps the status it had before the call (in particular a
backlog-status story stays `"backlog"`). -/
theorem plan_sprint_status_transition {H : Type} (now : Int) (t : AgentDevTeam H)
    (goal : String) (sel : Option (List String)) (i : Nat)
    (h : i < t.backlog.length)
    (h' : i < (plan_sprint now t goal sel).2.backlog.length) :
    ((t.backlog.get ⟨i, h⟩).id ∈ (plan_sprint now t goal sel).1.stories →
      ((plan_sprint now t goal sel).2.backlog.get ⟨i, h'⟩).status = "sprint_backlog") ∧
    ((t.backlog.get ⟨i, h⟩).id ∉ (plan_sprint now t goal sel).1.stories →
      ((plan_sprint now t goal sel).2.backlog.get ⟨i, h'⟩).status =
        (t.backlog.get ⟨i, h⟩).status) := by
  have hb := plan_sprint_backlog now t goal sel
  have hget : (plan_sprint now t goal sel).2.backlog.get ⟨i, h'⟩ =
      applySel (plan_sprint now t goal sel).1.stories (t.backlog.get ⟨i, h⟩) := by
    simp only [List.get_eq_getElem, hb, List.getElem_map]
  rw [hget]
  constructor
  · intro hmem
    simp only [List.get_eq_getElem] at hmem
    simp [applySel, hmem]
  · intro hmem
    simp only [List.get_eq_getElem] at hmem
    simp [applySel, hmem]

/-- Witness for C5: plan with explicit selection `["US-001"]` on the demo
backlog; the selected first story moves to `sprint_backlog`, the unselected
second story stays `"backlog"`. -/
theorem plan_sprint_status_transition_witness :
    ((plan_sprint 0 demoTeam "g" (some ["US-001"])).2.backlog.get
      ⟨0, by decide⟩).status = "sprint_backlog" ∧
    ((plan_sprint 0 demoTeam "g" (some ["US-001"])).2.backlog.get
      ⟨1, by decide⟩).status = (demoTeam.backlog.get ⟨1, by decide⟩).status :=
  ⟨(plan_sprint_status_transition 0 demoTeam "g" (some ["US-001"]) 0
      (by decide) (by decide)).1 (by decide),
   (plan_sprint_status_transition 0 demoTeam "g" (some ["US-001"]) 1
      (by decide) (by decide)).2 (by decide)⟩

/-- C7: with an explicit (non-`None`) selection, the id list is stored
verbatim as the sprint's stories — no capacity or eligibility check — and
a backlog entry whose id is not in the list (in particular when the list
holds identifiers matching no story) is left entirely unchanged; the call
is a total function and signals no error. -/
theorem plan_sprint_explicit_bypass {H : Type} (now : Int) (t : AgentDevTeam H)
    (goal : String) (ids : List String) :
    (plan_sprint now t goal (some ids)).1.stories = ids ∧
    ∀ (i : Nat) (h : i < t.backlog.length)
      (h' : i < (plan_sprint now t goal (some ids)).2.backlog.length),
      (t.backlog.get ⟨i, h⟩).id ∉ ids →
      (plan_sprint now t goal (some ids)).2.backlog.get ⟨i, h'⟩ =
        t.backlog.get ⟨i, h⟩ := by
  constructor
  · rfl
  · intro i h h' hmem
    have hb := plan_sprint_backlog now t goal (some ids)
    have hget : (plan_sprint now t goal (some ids)).2.backlog.get ⟨i, h'⟩ =
        applySel (plan_sprint now t goal (some ids)).1.stories (t.backlog.get ⟨i, h⟩) := by
      simp only [List.get_eq_getElem, hb, List.getElem_map]
    rw [hget]
    have hmem' : (t.backlog.get ⟨i, h⟩).id ∉ (plan_sprint now t goal (some ids)).1.stories :=
      hmem
    simp only [List.get_eq_getElem] at hmem' ⊢
    simp [applySel, hmem']

/-- Witness for C7: an explicit selection holding the id of the 20-point
story plus the unknown id `US-999` is stored verbatim, and the untouched
second story is unchanged. -/
theorem plan_sprint_explicit_bypass_witness :
    (plan_sprint 0 demoTeam "g" (some ["US-003", "US-999"])).1.stories =
      ["US-003", "US-999"] ∧
    (plan_sprint 0 demoTeam "g" (some ["US-003", "US-999"])).2.backlog.get
      ⟨1, by decide⟩ = demoTeam.backlog.get ⟨1, by decide⟩ :=
  ⟨(plan_sprint_explicit_bypass 0 demoTeam "g" ["US-003", "US-999"]).1,
   (plan_sprint_explicit_bypass 0 demoTeam "g" ["US-003", "US-999"]).2 1
     (by decide) (by decide) (by decide)⟩

/-- C4: starting from a fresh manager, N `create_user_story` calls return
stories whose ids are exactly `US-001 … US-<zero-padded N>` in call order
with no gaps or repeats, every new story is appended with status
`"backlog"`, and the backlog grows by exactly one story per call. -/
theorem create_user_story_identifier_monotonicity {H : Type} (cfg : SprintConfig)
    (now : Int) (inputs : List StoryInput) :
    (create_many now (initTeam H cfg) inputs).1.map (fun s => s.id) =
      (List.range inputs.length).map (fun i => usId (i + 1)) ∧
    ((create_many now (initTeam H cfg) inputs).1.map (fun s => s.id)).Nodup ∧
    (create_many now (initTeam H cfg) inputs).2.backlog =
      (create_many now (initTeam H cfg) inputs).1 ∧
    (create_many now (initTeam H cfg) inputs).2.backlog.length = inputs.length ∧
    (create_many now (initTeam H cfg) inputs).1.map (fun s => s.status) =
      List.replicate inputs.length "backlog" ∧
    ∀ (t : AgentDevTeam H) (title description : String) (criteria : List String)
      (points priority : Int),
      (create_user_story now t title description criteria points priority).2.backlog =
        t.backlog ++ [(create_user_story now t title description criteria points priority).1] := by
  have hids0 := create_many_ids now inputs (initTeam H cfg)
  have hids : (create_many now (initTeam H cfg) inputs).1.map (fun s => s.id) =
      (List.range inputs.length).map (fun i => usId (i + 1)) := by
    rw [hids0]
    apply List.map_congr_left
    intro i _
    congr 1
    show (initTeam H cfg).backlog.length + 1 + i = i + 1
    simp [initTeam]
    omega
  have hback0 := create_many_backlog now inputs (initTeam H cfg)
  have hback : (create_many now (initTeam H cfg) inputs).2.backlog =
      (create_many now (initTeam H cfg) inputs).1 := by
    rw [hback0]
    show [] ++ _ = _
    simp
  have hlen : (create_many now (initTeam H cfg) inputs).1.length = inputs.length := by
    have := congrArg List.length hids
    simpa using this
  refine ⟨hids, ?_, hback, ?_, create_many_statuses now inputs _, fun t a b c d e => rfl⟩
  · rw [hids]
    refine List.Nodup.map ?_ (List.nodup_range _)
    intro a b hab
    have := usId_inj (a + 1) (b + 1) hab
    omega
  · rw [hback, hlen]

/-- C6: in every reachable state of one manager instance, a story whose
status is not exactly `"backlog"` is never part of the auto-selected story
list of a `plan_sprint` call without an explicit selection. -/
theorem plan_sprint_eligibility_filter {H : Type} (now : Int) {t : AgentDevTeam H}
    (goal : String) (hr : Reachable t) (story : UserStory)
    (hmem : story ∈ t.backlog) (hst : story.status ≠ "backlog") :
    story.id ∉ (plan_sprint now t goal none).1.stories := by
  intro habs
  have hstories : (plan_sprint now t goal none).1.stories =
      (select_stories (sorted_backlog t.backlog)
        t.sprint_config.capacity_points).map (fun s => s.id) :=
    select_loop_eq_map _ _
  rw [hstories] at habs
  rcases List.mem_map.mp habs with ⟨s', hs'mem, hs'id⟩
  rcases select_stories_mem _ _ s' hs'mem with ⟨hsorted, hstatus⟩
  have hmem' : s' ∈ t.backlog := by
    have hx : s' ∈ List.insertionSort priorityLe t.backlog := hsorted
    exact (List.mem_insertionSort priorityLe).mp hx
  have hinj := List.inj_on_of_nodup_map (reachable_ids_nodup hr)
  have heq : s' = story := hinj hmem' hmem (by rw [hs'id])
  exact hst (heq ▸ hstatus)

/-- Witness for C6: after one auto-planned sprint, `US-001` sits in
`sprint_backlog`; a second auto-selecting call does not select it again
even though capacity would allow it. -/
theorem plan_sprint_eligibility_filter_witness :
    demoStory1.id ∉ (plan_sprint 0 demoPlanned "g2" none).1.stories :=
  plan_sprint_eligibility_filter 0 "g2"
    (Reachable.plan demoTeam 0 "g1" none
      (Reachable.create demoStep2.2 0 "export" "csv" ["works"] 20 3
        (Reachable.create demoStep1.2 0 "search" "find" ["works"] 15 2
          (Reachable.create demoTeam0 0 "auth" "login" ["works"] 10 1
            (Reachable.init demoCfg)))))
    demoStory1 (by decide) (by decide)
